import Mathlib

/-!
Verification of the dotmatrix-fileprinter strike validation and execution
pipeline (src/src-tauri/src/main.rs), shallowly embedded in Lean.

Bytes are modelled as `Nat` (the source's `u8` values all lie below 256,
but none of the properties below need that bound).  Fallible operations
return `Except`.  The `execute` command's process and filesystem effects
are modelled by an explicit environment (`ExecEnv`) and an explicit
fragment-file state (`Option String`), with byte-level writes to an
already-created file modelled as succeeding.
-/

namespace DotMatrix

/-! String literals appearing in the source, named once and reused. -/

/-- Description string of the NBSP forbidden byte (main.rs line 95). -/
def nbspDescription : String := "NBSP (Non-Breaking Space)"

/-- Description string of the UTF-8 forbidden byte (main.rs line 102). -/
def utf8Description : String := "UTF-8 continuation marker"

/-- Head of the non-ASCII contaminant description (main.rs line 118). -/
def nonAsciiDescHead : String := "Non-ASCII (0x"

/-- Tail of the non-ASCII contaminant description (main.rs line 118). -/
def nonAsciiDescTail : String := " > 127)"

/-- Character used to zero-pad numeric fields. -/
def zeroChar : Char := '0'

/-- Pad a string on the left with zeros to width `w`, as Rust's
zero-padded numeric format specifiers do. -/
def zpad (w : Nat) (s : String) : String :=
  String.mk (List.replicate (w - s.length) zeroChar) ++ s

/-- Lowercase hexadecimal digit, as Rust's `x` format type. -/
def lowerHexDigit (n : Nat) : Char :=
  if n < 10 then Char.ofNat (48 + n) else Char.ofNat (87 + n)

/-- Uppercase hexadecimal digit, as Rust's `X` format type. -/
def upperHexDigit (n : Nat) : Char :=
  if n < 10 then Char.ofNat (48 + n) else Char.ofNat (55 + n)

/-- Hexadecimal digit list of `n`, most significant first, computed by
repeated division exactly as Rust's hex formatting does.  The first
argument is structural fuel; `fuel > n` is always sufficient. -/
def hexDigitsCore (dig : Nat → Char) : Nat → Nat → List Char
  | 0, _ => []
  | fuel + 1, n =>
    if n < 16 then [dig n]
    else hexDigitsCore dig fuel (n / 16) ++ [dig (n % 16)]

/-- Rust `{:x}` of `n` (no padding). -/
def hexStr (n : Nat) : String := String.mk (hexDigitsCore lowerHexDigit (n + 1) n)

/-- Rust `{:02X}` of `n`: uppercase hex, zero-padded to width two. -/
def hex02X (n : Nat) : String :=
  zpad 2 (String.mk (hexDigitsCore upperHexDigit (n + 1) n))

/-- Full non-ASCII contaminant description: Rust
`format!("Non-ASCII (0x{:02X} > 127)", b)` (main.rs line 118). -/
def nonAsciiDescription (b : Nat) : String :=
  nonAsciiDescHead ++ hex02X b ++ nonAsciiDescTail

/-! Constraints from the Nickel contract (main.rs lines 15-19). -/

namespace constraints

/-- Inclusive upper bound for legal bytes. -/
def MAX_BYTE : Nat := 127

/-- Forbidden non-breaking-space byte. -/
def FORBIDDEN_NBSP : Nat := 160

/-- Forbidden UTF-8 lead/continuation marker byte. -/
def FORBIDDEN_UTF8 : Nat := 194

end constraints

/-- Errors that can occur during strike operations (main.rs lines 22-42). -/
inductive StrikeError where
  | ByteOutOfRange (position : Nat) (value : Nat)
  | ForbiddenByte (position : Nat) (value : Nat) (description : String)
  | FileError (msg : String)
  | ForthError (msg : String)
  | GforthNotFound
deriving DecidableEq, Repr

/-- Result of contamination check (main.rs lines 51-56). -/
structure Contaminant where
  position : Nat
  value : Nat
  description : String
deriving DecidableEq, Repr

/-- Result of verification (main.rs lines 75-81). -/
structure VerifyResult where
  clean : Bool
  contaminants : List Contaminant
  hexdump : String
  size : Nat
deriving DecidableEq, Repr

/-- Validate a single byte against constraints (main.rs lines 84-106). -/
def validate_byte (byte : Nat) (position : Nat) : Except StrikeError Unit :=
  if byte > constraints.MAX_BYTE then
    Except.error (StrikeError.ByteOutOfRange position byte)
  else if byte = constraints.FORBIDDEN_NBSP then
    Except.error (StrikeError.ForbiddenByte position byte nbspDescription)
  else if byte = constraints.FORBIDDEN_UTF8 then
    Except.error (StrikeError.ForbiddenByte position byte utf8Description)
  else
    Except.ok ()

/-- Body of the `filter_map` closure of `find_contaminants`
(main.rs lines 113-135), applied to one enumerated byte. -/
def contaminant_of (i : Nat) (b : Nat) : Option Contaminant :=
  if b > constraints.MAX_BYTE then
    some (Contaminant.mk i b (nonAsciiDescription b))
  else if b = constraints.FORBIDDEN_NBSP then
    some (Contaminant.mk i b nbspDescription)
  else if b = constraints.FORBIDDEN_UTF8 then
    some (Contaminant.mk i b utf8Description)
  else
    none

/-- Find all contaminants in a byte sequence, non-failing
(main.rs lines 109-137): enumerate, filter-map, collect. -/
def find_contaminants (bytes : List Nat) : List Contaminant :=
  bytes.enum.filterMap fun p => contaminant_of p.1 p.2

/-- The fail-fast validation loop of `execute_forth_strike`
(main.rs lines 201-203), started at position `i`. -/
def validate_from (i : Nat) : List Nat → Except StrikeError Unit
  | [] => Except.ok ()
  | b :: rest =>
    match validate_byte b i with
    | Except.error e => Except.error e
    | Except.ok _ => validate_from (i + 1) rest

/-- Fail-fast validation of a whole buffer, positions from zero. -/
def validate_all (bytes : List Nat) : Except StrikeError Unit :=
  validate_from 0 bytes

/-- One enumerated byte yields no contaminant exactly when fail-fast
validation accepts it at the same position. -/
lemma contaminant_of_none_iff (i b : Nat) :
    contaminant_of i b = none ↔ validate_byte b i = Except.ok () := by
  unfold contaminant_of validate_byte
  split_ifs <;> simp

/-- Exhaustive scanning from position `i` finds nothing exactly when
fail-fast validation from position `i` succeeds. -/
lemma scan_from_iff (bytes : List Nat) :
    ∀ i, ((List.enumFrom i bytes).filterMap fun p => contaminant_of p.1 p.2) = []
      ↔ validate_from i bytes = Except.ok () := by
  induction bytes with
  | nil => intro i; simp [validate_from]
  | cons b rest ih =>
    intro i
    rw [List.enumFrom_cons, List.filterMap_cons]
    cases hc : contaminant_of i b with
    | some c =>
      have hv : validate_byte b i ≠ Except.ok () := by
        intro h
        rw [← contaminant_of_none_iff] at h
        rw [h] at hc
        exact Option.noConfusion hc
      simp only [validate_from]
      cases hb : validate_byte b i with
      | error e => simp
      | ok u => exact absurd (by rw [hb]) hv
    | none =>
      have hv : validate_byte b i = Except.ok () := (contaminant_of_none_iff i b).mp hc
      simp only [validate_from, hv]
      exact ih (i + 1)

/-! Hexdump rendering (main.rs lines 140-173). -/

/-- Newline, the row separator of the hexdump. -/
def newlineStr : String := "\n"

/-- Single space, the hex-pair separator. -/
def spaceStr : String := " "

/-- Two spaces, the field separator of a hexdump row. -/
def twoSpaces : String := "  "

/-- Field separator followed by the opening vertical bar of the ASCII column. -/
def asciiOpen : String := "  |"

/-- Vertical bar closing the ASCII column. -/
def barStr : String := "|"

/-- Placeholder for non-printable bytes in the ASCII column. -/
def dotChar : Char := '.'

/-- Space character. -/
def spaceChar : Char := ' '

/-- Nonoverlapping chunks of sixteen, last possibly short, as Rust's
`slice::chunks(16)`.  Structural fuel; `fuel ≥ l.length` is sufficient. -/
def chunksCore : Nat → List Nat → List (List Nat)
  | 0, _ => []
  | _, [] => []
  | fuel + 1, b :: rest => ((b :: rest).take 16) :: chunksCore fuel ((b :: rest).drop 16)

/-- The `bytes.chunks(16)` of `bytes_to_hexdump`. -/
def chunksOf16 (l : List Nat) : List (List Nat) := chunksCore l.length l

/-- Hex field of one row: two-digit lowercase hex pairs joined by single
spaces, with the pair at index 8 carrying one extra leading space
(main.rs lines 145-156). -/
def hexOfChunk (chunk : List Nat) : String :=
  String.intercalate spaceStr (chunk.enum.map fun p =>
    if p.1 = 8 then spaceStr ++ zpad 2 (hexStr p.2) else zpad 2 (hexStr p.2))

/-- ASCII column of one row: printable bytes as themselves, the rest as
dots (main.rs lines 158-167). -/
def asciiOfChunk (chunk : List Nat) : String :=
  String.mk (chunk.map fun b => if 32 ≤ b ∧ b < 127 then Char.ofNat b else dotChar)

/-- Left-align-pad a string with spaces to width `w`, as Rust's `{:48}`. -/
def padRight (w : Nat) (s : String) : String :=
  s ++ String.mk (List.replicate (w - s.length) spaceChar)

/-- One hexdump row from its (chunk index, chunk) pair:
`format!("{:08x}  {:48}  |{}|", i * 16, hex, ascii)` (main.rs line 169). -/
def hexdump_row (p : Nat × List Nat) : String :=
  zpad 8 (hexStr (p.1 * 16)) ++ twoSpaces ++ padRight 48 (hexOfChunk p.2) ++
    asciiOpen ++ asciiOfChunk p.2 ++ barStr

/-- Generate hexdump-style output (main.rs lines 140-173). -/
def bytes_to_hexdump (bytes : List Nat) : String :=
  String.intercalate newlineStr ((chunksOf16 bytes).enum.map hexdump_row)

/-! Lemmas about the hexdump building blocks. -/

/-- The chunk list is fuel-independent once the fuel covers the length. -/
lemma chunksCore_length : ∀ (fuel : Nat) (l : List Nat), l.length ≤ fuel →
    (chunksCore fuel l).length = (l.length + 15) / 16 := by
  intro fuel
  induction fuel with
  | zero =>
    intro l hl
    cases l with
    | nil => rfl
    | cons b rest => simp at hl
  | succ n ih =>
    intro l hl
    cases l with
    | nil => rfl
    | cons b rest =>
      have hlen : ((b :: rest).drop 16).length = (b :: rest).length - 16 :=
        List.length_drop 16 (b :: rest)
      have hle : ((b :: rest).drop 16).length ≤ n := by
        rw [hlen]; simp only [List.length_cons] at hl ⊢; omega
      have hrec := ih ((b :: rest).drop 16) hle
      rw [hlen] at hrec
      simp only [chunksCore, List.length_cons] at hrec ⊢
      rw [hrec]
      omega

/-- Chunk `i` is exactly bytes `16*i` through `16*i + 15` of the buffer. -/
lemma chunksCore_get? : ∀ (fuel : Nat) (l : List Nat) (i : Nat), l.length ≤ fuel →
    i < (chunksCore fuel l).length →
    (chunksCore fuel l).get? i = some ((l.drop (16 * i)).take 16) := by
  intro fuel
  induction fuel with
  | zero =>
    intro l i _ hi
    simp [chunksCore] at hi
  | succ n ih =>
    intro l i hl hi
    cases l with
    | nil => simp [chunksCore] at hi
    | cons b rest =>
      cases i with
      | zero =>
        simp [chunksCore]
      | succ j =>
        have hlen : ((b :: rest).drop 16).length = (b :: rest).length - 16 :=
          List.length_drop 16 (b :: rest)
        have hle : ((b :: rest).drop 16).length ≤ n := by
          rw [hlen]; simp only [List.length_cons] at hl ⊢; omega
        have hj : j < (chunksCore n ((b :: rest).drop 16)).length := by
          simp only [chunksCore, List.length_cons] at hi
          omega
        have hrec := ih ((b :: rest).drop 16) j hle hj
        simp only [chunksCore, List.get?_cons_succ]
        rw [hrec, List.drop_drop]
        rw [show 16 + 16 * j = 16 * (j + 1) by omega]

/-- Length bound for the raw hex digits: fewer than `k` digits when the
value is below `16 ^ k`. -/
lemma hexDigitsCore_length_le (dig : Nat → Char) :
    ∀ (fuel n k : Nat), n < fuel → 1 ≤ k → n < 16 ^ k →
      (hexDigitsCore dig fuel n).length ≤ k := by
  intro fuel
  induction fuel with
  | zero => intro n k hn _ _; omega
  | succ m ih =>
    intro n k hn hk hpow
    by_cases hsmall : n < 16
    · simp [hexDigitsCore, hsmall, hk]
    · have h16 : 16 ≤ n := Nat.le_of_not_lt hsmall
      have hk2 : 2 ≤ k := by
        by_contra hlt
        have : k = 1 := by omega
        rw [this] at hpow
        simp at hpow
        omega
      have hdivlt : n / 16 < m := by
        have : n / 16 < n := Nat.div_lt_self (by omega) (by omega)
        omega
      have hdivpow : n / 16 < 16 ^ (k - 1) := by
        have h1 : 16 ^ k = 16 ^ (k - 1) * 16 := by
          conv_lhs => rw [show k = (k - 1) + 1 by omega]
          rw [Nat.pow_succ]
        refine Nat.div_lt_of_lt_mul ?_
        rw [Nat.mul_comm]
        rw [h1] at hpow
        exact hpow
      have := ih (n / 16) (k - 1) hdivlt (by omega) hdivpow
      simp only [hexDigitsCore, if_neg hsmall, List.length_append, List.length_cons,
        List.length_nil]
      omega

/-- A zero-padded-to-eight hex offset below `16 ^ 8` is exactly eight
characters wide. -/
lemma zpad_hexStr_length (n : Nat) (h : n < 16 ^ 8) :
    (zpad 8 (hexStr n)).length = 8 := by
  have hlen : (hexStr n).length ≤ 8 := by
    have := hexDigitsCore_length_le lowerHexDigit (n + 1) n 8 (Nat.lt_succ_self n)
      (by omega) h
    simpa [hexStr, String.length_mk] using this
  have : (zpad 8 (hexStr n)).length =
      (List.replicate (8 - (hexStr n).length) zeroChar).length + (hexStr n).length := by
    simp [zpad, String.length_append, String.length_mk]
  rw [this, List.length_replicate]
  omega

/-- Length of an enumeration from any starting index. -/
lemma enumFrom_length' {α : Type} : ∀ (j : Nat) (l : List α),
    (List.enumFrom j l).length = l.length := by
  intro j l
  induction l generalizing j with
  | nil => simp
  | cons a as ih => simp [List.enumFrom_cons, ih]

/-- Indexing into the mapped enumeration of a list. -/
lemma enum_map_get? {α β : Type} (f : Nat × α → β) :
    ∀ (l : List α) (j i : Nat) (c : α), l.get? i = some c →
      ((List.enumFrom j l).map f).get? i = some (f (j + i, c)) := by
  intro l
  induction l with
  | nil => intro j i c h; simp at h
  | cons a as ih =>
    intro j i c h
    cases i with
    | zero =>
      simp only [List.get?_cons_zero, Option.some.injEq] at h
      simp [List.enumFrom_cons, h]
    | succ m =>
      simp only [List.get?_cons_succ] at h
      have hrec := ih (j + 1) m c h
      simp only [List.enumFrom_cons, List.map_cons, List.get?_cons_succ]
      rw [show j + (m + 1) = j + 1 + m by omega]
      exact hrec

/-! Error display strings (the `thiserror` messages, main.rs lines 22-42),
and the strike protocol encoder and execute pipeline (main.rs lines 197-252). -/

/-- Empty string. -/
def emptyStr : String := ""

/-- Display text of `GforthNotFound` (main.rs line 40). -/
def gforthNotFoundMsg : String := "Gforth not found. Please install gforth."

/-- Display text of `FileError` (main.rs line 34). -/
def fileErrorMsg (s : String) : String := "File operation failed: " ++ s

/-- Display text of `ForthError` (main.rs line 37). -/
def forthErrorMsg (s : String) : String := "Forth kernel execution failed: " ++ s

/-- Inner message when the kernel directory is missing (main.rs line 213). -/
def kernelDirNotFoundStr : String := "kernel/ directory not found"

/-- Inner message when gforth exits nonzero (main.rs line 250). -/
def nonZeroExitStr : String := "Forth kernel returned non-zero exit code"

/-- Display string of a `StrikeError`, mirroring the `#[error(...)]`
format strings (main.rs lines 22-42). -/
def strikeErrorMessage : StrikeError → String
  | StrikeError.ByteOutOfRange pos v =>
      "Byte " ++ Nat.repr v ++ " at position " ++ Nat.repr pos ++
        " exceeds ASCII limit (127)"
  | StrikeError.ForbiddenByte pos v d =>
      "Forbidden byte " ++ Nat.repr v ++ " (0x" ++ hex02X v ++ ") at position " ++
        Nat.repr pos ++ ": " ++ d
  | StrikeError.FileError s => fileErrorMsg s
  | StrikeError.ForthError s => forthErrorMsg s
  | StrikeError.GforthNotFound => gforthNotFoundMsg

/-- Comment marker line written first into the data fragment (main.rs line 220). -/
def commentMarkerLine : String := "\\ Auto-generated strike data"

/-- Head of the array declaration line (main.rs line 221). -/
def arrayDeclHead : String := "CREATE STRIKE-DATA "

/-- Text written per byte into the declaration: `format!("{} , ", b)`
(main.rs line 223). -/
def elemTail : String := " , "

/-- Content of `kernel/data.fth` as produced by the sequence of
`writeln!`/`write!` calls of `execute_forth_strike` (main.rs lines 220-225):
a comment line, then the array-declaration head, then one write per byte
in a loop, then a terminating newline. -/
def write_strike_data (bytes : List Nat) : String :=
  bytes.foldl (fun acc b => acc ++ Nat.repr b ++ elemTail)
    (commentMarkerLine ++ newlineStr ++ arrayDeclHead) ++ newlineStr

/-- The inline `-e` execution directive (main.rs lines 238-242):
`format!("s\" {}\" strike-init STRIKE-DATA {} strike-sequence strike-close bye",
path, bytes.len())`. -/
def strike_directive (bytes : List Nat) (path : String) : String :=
  "s\" " ++ path ++ "\" strike-init STRIKE-DATA " ++ Nat.repr bytes.length ++
    " strike-sequence strike-close bye"

/-- Environment oracle for the effectful steps of `execute_forth_strike`:
the gforth availability probe, the kernel-directory existence check, the
fragment-file creation, the destination-parent creation, and the child
process outcome (`none` models a spawn failure, `some b` an exit with
success flag `b`). -/
structure ExecEnv where
  gforth_available : Bool
  kernel_dir_exists : Bool
  create_ok : Bool
  create_err : String
  dist_dir_ok : Bool
  dist_dir_err : String
  spawn_outcome : Option Bool
  spawn_err : String

/-- Execute a strike via the Forth kernel (main.rs lines 199-252), as a
function of the environment oracle and the prior content of the shared
fragment location `kernel/data.fth`.  Returns the command result together
with the fragment location's content afterwards.  Byte-level writes to a
successfully created fragment file are modelled as succeeding. -/
def execute_forth_strike (env : ExecEnv) (bytes : List Nat) (path : String)
    (fragment₀ : Option String) : Except String Unit × Option String :=
  match validate_all bytes with
  | Except.error e => (Except.error (strikeErrorMessage e), fragment₀)
  | Except.ok _ =>
    if env.gforth_available = false then
      (Except.error (strikeErrorMessage StrikeError.GforthNotFound), fragment₀)
    else if env.kernel_dir_exists = false then
      (Except.error (strikeErrorMessage (StrikeError.FileError kernelDirNotFoundStr)),
        fragment₀)
    else if env.create_ok = false then
      (Except.error (strikeErrorMessage (StrikeError.FileError env.create_err)),
        fragment₀)
    else
      let frag := some (write_strike_data bytes)
      if env.dist_dir_ok = false then
        (Except.error (strikeErrorMessage (StrikeError.FileError env.dist_dir_err)),
          frag)
      else
        match env.spawn_outcome with
        | none =>
          (Except.error (strikeErrorMessage (StrikeError.ForthError env.spawn_err)),
            frag)
        | some true => (Except.ok (), frag)
        | some false =>
          (Except.error (strikeErrorMessage (StrikeError.ForthError nonZeroExitStr)),
            frag)

/-- Message on a failed read in `verify_substrate` (main.rs line 257):
`format!("Failed to read {}: {}", path, e)`. -/
def failedToReadMsg (path e : String) : String :=
  "Failed to read " ++ path ++ ": " ++ e

/-- Read and verify a substrate file (main.rs lines 256-266), as a function
of the raw read outcome delivered by the I/O gateway. -/
def verify_substrate (path : String) (readResult : Except String (List Nat)) :
    Except String VerifyResult :=
  match readResult with
  | Except.error e => Except.error (failedToReadMsg path e)
  | Except.ok bytes =>
    let contaminants := find_contaminants bytes
    Except.ok
      (VerifyResult.mk contaminants.isEmpty contaminants (bytes_to_hexdump bytes)
        bytes.length)

/-- Read substrate as hex (main.rs lines 269-272) — delegates to
`verify_substrate`. -/
def read_substrate_hex (path : String) (readResult : Except String (List Nat)) :
    Except String VerifyResult :=
  verify_substrate path readResult

/-! Helper lemmas for string concatenation. -/

/-- Associativity of string append. -/
lemma strAppendAssoc (a b c : String) : a ++ b ++ c = a ++ (b ++ c) :=
  congrArg String.mk (List.append_assoc a.data b.data c.data)

/-- The empty string is a right identity for append. -/
lemma strAppendEmptyStr (a : String) : a ++ emptyStr = a :=
  congrArg String.mk (List.append_nil a.data)

/-! The strike protocol encoder, described by the spec: one array element
per byte, a decimal literal then the append-operator token, space
separated. -/

/-- The interpreter's array-append operator token. -/
def commaTok : String := ","

/-- The elements of the array declaration as the spec describes them:
for each byte in buffer order, its decimal literal, a space, the append
operator token, and a space. -/
def array_elements : List Nat → String
  | [] => emptyStr
  | b :: rest => Nat.repr b ++ spaceStr ++ commaTok ++ spaceStr ++ array_elements rest

/-- Unrolling the per-byte write loop into the element list form. -/
lemma foldl_write_eq (bytes : List Nat) : ∀ init : String,
    bytes.foldl (fun acc b => acc ++ Nat.repr b ++ elemTail) init =
      init ++ array_elements bytes := by
  induction bytes with
  | nil => intro init; rw [List.foldl_nil, array_elements, strAppendEmptyStr]
  | cons b rest ih =>
    intro init
    rw [List.foldl_cons, ih (init ++ Nat.repr b ++ elemTail), array_elements]
    simp only [strAppendAssoc]
    rfl

/-! Remaining named constants used by concrete inputs and theorems. -/

/-- The single-NBSP input buffer of the spec scenario. -/
def nbspInput : List Nat := [160]

/-- The ASCII word "Hello" as a byte buffer. -/
def helloBytes : List Nat := [72, 101, 108, 108, 111]

/-- ASCII column content actually rendered for `helloBytes`. -/
def helloStr : String := "Hello"

/-- ASCII column content the spec scenario displays for `helloBytes`. -/
def helloPaddedStr : String := "Hello..........."

/-- Vertical bar character delimiting the ASCII column. -/
def barChar : Char := '|'

/-- A 20-byte buffer (letter A twenty times) used as a two-row witness. -/
def w20 : List Nat := List.replicate 20 65

/-- Sample substrate path used in witnesses. -/
def samplePath : String := "substrate.bin"

/-- Sample destination path used in witnesses. -/
def outPath : String := "dist/out.txt"

/-- Environment in which the gforth availability probe fails and
everything else would succeed. -/
def envNoGforth : ExecEnv :=
  ExecEnv.mk false true true emptyStr true emptyStr (some true) emptyStr

/-- Opening token of the Forth string literal in the directive. -/
def stringLitOpen : String := "s\" "

/-- Closing quote of the Forth string literal in the directive. -/
def stringLitClose : String := "\""

/-- The interpreter-side begin/init word. -/
def initWord : String := "strike-init"

/-- Name of the declared data array. -/
def arrayName : String := "STRIKE-DATA"

/-- The execute-sequence word. -/
def seqWord : String := "strike-sequence"

/-- The close word. -/
def closeWord : String := "strike-close"

/-- The word terminating the interpreter session. -/
def byeWord : String := "bye"

/-- The non-ASCII description never coincides with the NBSP description,
whatever hex text stands in its middle (they differ at character 1). -/
lemma nonAscii_ne_nbsp (s : String) :
    nonAsciiDescHead ++ s ++ nonAsciiDescTail ≠ nbspDescription := by
  intro h
  have h3 := congrArg (fun t : String => t.data.get? 1) h
  have h4 : (some 'o' : Option Char) = some 'B' := h3
  exact absurd (Option.some.inj h4) (by decide)

/-- The non-ASCII description never coincides with the UTF-8 description,
whatever hex text stands in its middle (they differ at character 0). -/
lemma nonAscii_ne_utf8 (s : String) :
    nonAsciiDescHead ++ s ++ nonAsciiDescTail ≠ utf8Description := by
  intro h
  have h3 := congrArg (fun t : String => t.data.get? 0) h
  have h4 : (some 'N' : Option Char) = some 'U' := h3
  exact absurd (Option.some.inj h4) (by decide)

/-! Claim theorems. -/

/-- Claim C1, counterexample: for the buffer `[160]` it is false that
fail-fast validation returns a ForbiddenByte error with the NBSP
description and that the exhaustive scan returns a contaminant carrying
the NBSP description — the greater-than-maximum rule fires first. -/
theorem nbsp_claim_counterexample :
    ¬ (validate_byte 160 0 =
         Except.error (StrikeError.ForbiddenByte 0 160 nbspDescription) ∧
       find_contaminants nbspInput = [Contaminant.mk 0 160 nbspDescription]) := by
  intro h
  have h1 := h.1
  rw [show validate_byte 160 0 = Except.error (StrikeError.ByteOutOfRange 0 160)
    from rfl] at h1
  exact absurd h1 (by simp)

/-- Claim C1 as amended: for the buffer `[160]`, fail-fast validation
fails with `ByteOutOfRange` at position 0 (value 160), and the exhaustive
scan returns exactly one contaminant at position 0 carrying the
non-ASCII (exceeds-limit) description, not the NBSP description. -/
theorem nbsp_reported_as_out_of_range :
    validate_byte 160 0 = Except.error (StrikeError.ByteOutOfRange 0 160) ∧
    find_contaminants nbspInput = [Contaminant.mk 0 160 (nonAsciiDescription 160)] ∧
    nonAsciiDescription 160 ≠ nbspDescription :=
  ⟨rfl, rfl, nonAscii_ne_nbsp (hex02X 160)⟩

/-- Claim C2: the exhaustive scan finds no contaminants exactly when
fail-fast validation of the whole buffer succeeds — the two modes agree
on pass/fail for every buffer. -/
theorem scan_validate_agree (bytes : List Nat) :
    find_contaminants bytes = [] ↔ validate_all bytes = Except.ok () :=
  scan_from_iff bytes 0

/-- Claim C3: both validation modes evaluate the rules in the fixed
order — a byte above the configured maximum is reported with the
exceeds-limit description (even when it also equals a forbidden value);
only otherwise a byte equal to a forbidden value is reported with that
value's specific description; a byte matching neither passes. -/
theorem both_modes_rule_order (b pos : Nat) :
    (constraints.MAX_BYTE < b →
      validate_byte b pos = Except.error (StrikeError.ByteOutOfRange pos b) ∧
      contaminant_of pos b = some (Contaminant.mk pos b (nonAsciiDescription b))) ∧
    (¬ constraints.MAX_BYTE < b → b = constraints.FORBIDDEN_NBSP →
      validate_byte b pos = Except.error (StrikeError.ForbiddenByte pos b nbspDescription) ∧
      contaminant_of pos b = some (Contaminant.mk pos b nbspDescription)) ∧
    (¬ constraints.MAX_BYTE < b → b = constraints.FORBIDDEN_UTF8 →
      validate_byte b pos = Except.error (StrikeError.ForbiddenByte pos b utf8Description) ∧
      contaminant_of pos b = some (Contaminant.mk pos b utf8Description)) ∧
    (¬ constraints.MAX_BYTE < b → b ≠ constraints.FORBIDDEN_NBSP →
      b ≠ constraints.FORBIDDEN_UTF8 →
      validate_byte b pos = Except.ok () ∧ contaminant_of pos b = none) := by
  refine ⟨fun h => ?_, fun h1 h2 => ?_, fun h1 h2 => ?_, fun h1 h2 h3 => ?_⟩
  · exact ⟨by simp [validate_byte, h], by simp [contaminant_of, h]⟩
  · exfalso
    simp only [constraints.MAX_BYTE] at h1
    simp only [constraints.FORBIDDEN_NBSP] at h2
    omega
  · exfalso
    simp only [constraints.MAX_BYTE] at h1
    simp only [constraints.FORBIDDEN_UTF8] at h2
    omega
  · exact ⟨by simp [validate_byte, h1, h2, h3], by simp [contaminant_of, h1, h2, h3]⟩

/-- Witness for C3 at the concrete byte 200. -/
theorem both_modes_rule_order_witness :
    validate_byte 200 0 = Except.error (StrikeError.ByteOutOfRange 0 200) ∧
    contaminant_of 0 200 = some (Contaminant.mk 0 200 (nonAsciiDescription 200)) :=
  (both_modes_rule_order 200 0).1 (by decide)

/-- Claim C9: under the default policy the forbidden-value branches are
dead — validation never returns a `ForbiddenByte` error, and no
contaminant ever carries the NBSP or UTF-8 description, because both
forbidden values exceed the maximum and are caught by the
greater-than-maximum rule first. -/
theorem forbidden_branches_unreachable (b pos : Nat) (bytes : List Nat)
    (c : Contaminant) (hc : c ∈ find_contaminants bytes) :
    (∀ p v : Nat, ∀ d : String,
      validate_byte b pos ≠ Except.error (StrikeError.ForbiddenByte p v d)) ∧
    c.description ≠ nbspDescription ∧ c.description ≠ utf8Description := by
  constructor
  · intro p v d h
    unfold validate_byte at h
    split_ifs at h with h1 h2 h3
    · simp at h
    · simp only [constraints.MAX_BYTE] at h1
      simp only [constraints.FORBIDDEN_NBSP] at h2
      omega
    · simp only [constraints.MAX_BYTE] at h1
      simp only [constraints.FORBIDDEN_UTF8] at h3
      omega
  · obtain ⟨p, hmem, hsome⟩ := List.mem_filterMap.mp hc
    unfold contaminant_of at hsome
    split_ifs at hsome with h1 h2 h3
    · obtain rfl : Contaminant.mk p.1 p.2 (nonAsciiDescription p.2) = c :=
        Option.some.inj hsome
      exact ⟨nonAscii_ne_nbsp (hex02X p.2), nonAscii_ne_utf8 (hex02X p.2)⟩
    · exfalso
      simp only [constraints.MAX_BYTE] at h1
      simp only [constraints.FORBIDDEN_NBSP] at h2
      omega
    · exfalso
      simp only [constraints.MAX_BYTE] at h1
      simp only [constraints.FORBIDDEN_UTF8] at h3
      omega

/-- Witness for C9 on the buffer `[160]` and its unique contaminant. -/
theorem forbidden_branches_unreachable_witness :
    validate_byte 160 0 ≠
      Except.error (StrikeError.ForbiddenByte 0 160 nbspDescription) ∧
    (Contaminant.mk 0 160 (nonAsciiDescription 160)).description ≠ nbspDescription := by
  have h := forbidden_branches_unreachable 160 0 nbspInput
    (Contaminant.mk 0 160 (nonAsciiDescription 160)) (by decide)
  exact ⟨h.1 0 160 nbspDescription, h.2.1⟩

/-- Claim C10: the exposed `read_substrate_hex` operation returns exactly
the same result as `verify_substrate` on every path and read outcome. -/
theorem read_substrate_hex_eq_verify (path : String)
    (readResult : Except String (List Nat)) :
    read_substrate_hex path readResult = verify_substrate path readResult := rfl

/-- Claim C5: `verify_substrate` returns an error exactly when the raw
read fails — contaminants never make it fail — and in a success result
the clean flag is true exactly when the contaminant list is empty. -/
theorem verify_error_iff_read_error (path : String)
    (readResult : Except String (List Nat)) :
    ((∃ m, verify_substrate path readResult = Except.error m) ↔
      (∃ m, readResult = Except.error m)) ∧
    (∀ r, verify_substrate path readResult = Except.ok r →
      (r.clean = true ↔ r.contaminants = [])) := by
  constructor
  · constructor
    · rintro ⟨m, hm⟩
      cases readResult with
      | error e => exact ⟨e, rfl⟩
      | ok bytes => exact absurd hm (by simp [verify_substrate])
    · rintro ⟨m, hm⟩
      cases readResult with
      | error e => exact ⟨failedToReadMsg path e, rfl⟩
      | ok bytes => exact Except.noConfusion hm
  · intro r hr
    cases readResult with
    | error e => exact absurd hr (by simp [verify_substrate])
    | ok bytes =>
      simp only [verify_substrate] at hr
      obtain rfl := Except.ok.inj hr
      simp only [List.isEmpty_iff]

/-- Witness for C5 on a successful read of the buffer `[160]`. -/
theorem verify_error_iff_read_error_witness :
    ((∃ m, verify_substrate samplePath (Except.ok nbspInput) = Except.error m) ↔
      (∃ m, (Except.ok nbspInput : Except String (List Nat)) = Except.error m)) ∧
    ((VerifyResult.mk false [Contaminant.mk 0 160 (nonAsciiDescription 160)]
        (bytes_to_hexdump nbspInput) 1).clean = true ↔
      [Contaminant.mk 0 160 (nonAsciiDescription 160)] = ([] : List Contaminant)) := by
  have h := verify_error_iff_read_error samplePath (Except.ok nbspInput)
  exact ⟨h.1, h.2 _ rfl⟩

/-- Claim C4: when fail-fast validation rejects the buffer, or the gforth
availability probe fails, `execute_forth_strike` returns an error and the
shared fragment location is left exactly as it was; when validation
passes and the probe fails, the error is the interpreter-unavailable
message. -/
theorem execute_aborts_before_fragment_write (env : ExecEnv) (bytes : List Nat)
    (path : String) (fragment₀ : Option String)
    (h : env.gforth_available = false ∨ validate_all bytes ≠ Except.ok ()) :
    (execute_forth_strike env bytes path fragment₀).2 = fragment₀ ∧
    (∃ m, (execute_forth_strike env bytes path fragment₀).1 = Except.error m) ∧
    (validate_all bytes = Except.ok () → env.gforth_available = false →
      (execute_forth_strike env bytes path fragment₀).1 =
        Except.error gforthNotFoundMsg) := by
  cases hv : validate_all bytes with
  | error e =>
    simp only [execute_forth_strike, hv]
    exact ⟨trivial, ⟨_, rfl⟩, fun hok _ => Except.noConfusion hok⟩
  | ok u =>
    have hg : env.gforth_available = false := by
      rcases h with hg | hvne
      · exact hg
      · exact absurd (by rw [hv]) hvne
    simp [execute_forth_strike, hv, hg, strikeErrorMessage]

/-- Witness for C4: a valid buffer, gforth unavailable, empty prior
fragment state. -/
theorem execute_aborts_witness :
    (execute_forth_strike envNoGforth helloBytes outPath none).2 = none ∧
    (execute_forth_strike envNoGforth helloBytes outPath none).1 =
      Except.error gforthNotFoundMsg := by
  have h := execute_aborts_before_fragment_write envNoGforth helloBytes outPath none
    (Or.inl rfl)
  exact ⟨h.1, h.2.2 rfl rfl⟩

/-- Claim C6: the encoder emits exactly the two artifacts — a fragment
made of the comment-marker line and one array-declaration line holding,
for each byte in buffer order, its decimal literal and one append
operator token, space separated; and a one-line directive that opens a
string literal with the destination, invokes the init word, references
the array, passes the buffer length, and invokes the sequence word, the
close word, and the session terminator. -/
theorem strike_encoder_artifacts (bytes : List Nat) (path : String) :
    write_strike_data bytes =
      commentMarkerLine ++ newlineStr ++
        (arrayDeclHead ++ array_elements bytes) ++ newlineStr ∧
    strike_directive bytes path =
      stringLitOpen ++ path ++ stringLitClose ++ spaceStr ++ initWord ++ spaceStr ++
        arrayName ++ spaceStr ++ Nat.repr bytes.length ++ spaceStr ++ seqWord ++
        spaceStr ++ closeWord ++ spaceStr ++ byeWord := by
  constructor
  · unfold write_strike_data
    rw [foldl_write_eq]
    simp only [strAppendAssoc]
  · unfold strike_directive
    simp only [strAppendAssoc]
    rfl

/-- Claim C7: the hexdump of the empty buffer is the empty string; the
row list has exactly `(len + 15) / 16` rows (the ceiling of `len / 16`);
the dump is the newline join of the rows; and row `i` covers bytes
`16 * i` onward and starts with the eight-character zero-padded hex
offset of its first byte, followed by the padded hex field and the
bar-delimited ASCII column. -/
theorem hexdump_shape (bytes : List Nat) (hlen : bytes.length ≤ 16 ^ 8) :
    bytes_to_hexdump [] = emptyStr ∧
    ((chunksOf16 bytes).enum.map hexdump_row).length = (bytes.length + 15) / 16 ∧
    bytes_to_hexdump bytes =
      String.intercalate newlineStr ((chunksOf16 bytes).enum.map hexdump_row) ∧
    ∀ i, i < (bytes.length + 15) / 16 →
      (chunksOf16 bytes).get? i = some ((bytes.drop (16 * i)).take 16) ∧
      ((chunksOf16 bytes).enum.map hexdump_row).get? i =
        some (zpad 8 (hexStr (i * 16)) ++ twoSpaces ++
          padRight 48 (hexOfChunk ((bytes.drop (16 * i)).take 16)) ++ asciiOpen ++
          asciiOfChunk ((bytes.drop (16 * i)).take 16) ++ barStr) ∧
      (zpad 8 (hexStr (i * 16))).length = 8 := by
  have hchlen : (chunksOf16 bytes).length = (bytes.length + 15) / 16 :=
    chunksCore_length bytes.length bytes (Nat.le_refl _)
  refine ⟨rfl, ?_, rfl, ?_⟩
  · rw [List.length_map]
    show (List.enumFrom 0 (chunksOf16 bytes)).length = _
    rw [enumFrom_length', hchlen]
  · intro i hi
    have hgi : i < (chunksOf16 bytes).length := by rw [hchlen]; exact hi
    have hget := chunksCore_get? bytes.length bytes i (Nat.le_refl _) hgi
    refine ⟨hget, ?_, ?_⟩
    · have hrow := enum_map_get? hexdump_row (chunksOf16 bytes) 0 i _ hget
      rw [Nat.zero_add] at hrow
      exact hrow
    · apply zpad_hexStr_length
      have hpow : (16 : Nat) ^ 8 = 4294967296 := by norm_num
      rw [hpow] at hlen ⊢
      omega

/-- Witness for C7 on a 20-byte buffer (two rows, second one partial). -/
theorem hexdump_shape_witness :
    ((chunksOf16 w20).enum.map hexdump_row).length = 2 ∧
    (zpad 8 (hexStr (1 * 16))).length = 8 := by
  have h := hexdump_shape w20 (by norm_num [w20, List.length_replicate])
  refine ⟨?_, (h.2.2.2 1 (by norm_num [w20, List.length_replicate])).2.2⟩
  have h2 := h.2.1
  norm_num [w20, List.length_replicate] at h2
  exact h2

/-- Claim C8, counterexample: in the hexdump of the "Hello" buffer, the
segment between the vertical bars is exactly "Hello", not "Hello" padded
with dots to sixteen characters as the spec scenario displays. -/
theorem hexdump_hello_counterexample :
    (bytes_to_hexdump helloBytes).data.dropWhile (fun c => c != barChar) =
      barChar :: (helloStr.data ++ [barChar]) ∧
    helloStr ≠ helloPaddedStr ∧ helloPaddedStr.length = 16 := by
  refine ⟨?_, by decide, by decide⟩
  decide

/-- Claim C8 as amended: for the "Hello" buffer, fail-fast validation
succeeds, the exhaustive scan finds nothing, and the hexdump is the
single row with the unpadded ASCII column `|Hello|`. -/
theorem hexdump_hello_row :
    validate_all helloBytes = Except.ok () ∧
    find_contaminants helloBytes = [] ∧
    bytes_to_hexdump helloBytes =
      "00000000  48 65 6c 6c 6f" ++ String.mk (List.replicate 34 spaceChar) ++
        "  |Hello|" :=
  ⟨rfl, rfl, by decide⟩

end DotMatrix
